import Mathlib

/-!
Verification of the DNA Center dynamic-inventory plugin
(`dynamic_inventory/dna_center.py`).

The pure core of the plugin is embedded shallowly: the remote API results
(device records, site records, physical-topology nodes) become explicit list
parameters, the Ansible inventory becomes an explicit `Registry` state, and
each method of `InventoryModule` becomes a Lean function over those values.
-/

namespace DnaCenter

/-! ## Data model

Field shapes follow the keys the plugin actually reads from the API
responses. -/

/-- Raw device record as consumed by `_get_hosts` / `_get_inventory`. -/
structure RawDevice where
  managementIpAddress : String
  hostname : String
  id : String
  family : String
  softwareType : String
  softwareVersion : String
  reachabilityStatus : String
  role : String
  serialNumber : String
  series : String
  deriving DecidableEq, Repr

/-- Normalized host dictionary built by `_get_hosts`. -/
structure Host where
  managementIpAddress : String
  hostname : String
  id : String
  os : String
  version : String
  reachabilityStatus : String
  role : String
  serialNumber : List String
  series : String
  host_data : RawDevice
  deriving DecidableEq, Repr

/-- Raw site record from the site-topology query (`_get_sites`). -/
structure RawSite where
  name : String
  id : String
  parentId : String
  locationType : String
  deriving DecidableEq, Repr

/-- Normalized site dictionary built by `_get_sites`. -/
structure Site where
  name : String
  id : String
  parentId : String
  deriving DecidableEq, Repr

/-- Physical-topology node (`_get_member_site`): the device id together with
`additionalInfo.siteid`; the nested `.get('siteid')` may be absent, hence the
`Option`. -/
structure TopologyNode where
  id : String
  siteid : Option String
  deriving DecidableEq, Repr

/-! ## Python string primitives used by the plugin -/

/-- `needle` occurs as a contiguous substring of `hay`; this is Python
`hay.find(needle) != -1`. -/
def containsSub (needle : List Char) : List Char → Bool
  | [] => needle.isPrefixOf []
  | c :: t => needle.isPrefixOf (c :: t) || containsSub needle t

/-- Leftmost occurrence of `sep` in a character list: the part before the
separator and the part after it, or `none` when `sep` does not occur. -/
def splitFirst (sep : List Char) : List Char → Option (List Char × List Char)
  | [] => none
  | c :: t =>
    if sep.isPrefixOf (c :: t) then some ([], (c :: t).drop sep.length)
    else
      match splitFirst sep t with
      | some (pre, rest) => some (c :: pre, rest)
      | none => none

/-- Fuel-indexed worker for `pySplit`; the fuel only bounds the recursion
depth, one separator occurrence is consumed per step. -/
def pySplitAux (sep : List Char) : Nat → List Char → List (List Char)
  | 0, s => [s]
  | fuel + 1, s =>
    match splitFirst sep s with
    | none => [s]
    | some (pre, rest) => pre :: pySplitAux sep fuel rest

/-- Python `s.split(sep)` for a nonempty separator: split at every
non-overlapping occurrence of `sep`, scanning left to right. -/
def pySplit (sep : String) (s : String) : List String :=
  (pySplitAux sep.toList s.toList.length s.toList).map (fun cs => String.mk cs)

/-- The `special_char_map` of `_get_sites`: Python `str.translate` maps each
listed code point to a replacement string and leaves every other character
unchanged. -/
def specialCharMap (c : Char) : String :=
  if c = 'ä' then "ae"
  else if c = 'ü' then "ue"
  else if c = 'ö' then "oe"
  else if c = 'ß' then "ss"
  else if c = '(' then "_"
  else if c = ')' then "_"
  else if c = ' ' then "_"
  else if c = '-' then "_"
  else if c = '.' then "_"
  else String.singleton c

/-- `site['name'].translate(special_char_map)`: one simultaneous pass over the
characters. -/
def pyTranslate (s : String) : String :=
  String.join (s.toList.map specialCharMap)

/-- Python `str.lower` on the character set the plugin can encounter: ASCII
plus the umlaut capitals. -/
def pyLowerChar (c : Char) : Char :=
  if c = 'Ä' then 'ä'
  else if c = 'Ü' then 'ü'
  else if c = 'Ö' then 'ö'
  else c.toLower

/-- Python `str.lower`. -/
def pyLower (s : String) : String := String.mk (s.toList.map pyLowerChar)

/-! ## `_get_sites`: site-name normalization -/

/-- `site['name'].translate(special_char_map).lower()` (line 215). -/
def normalizedSiteName (name : String) : String := pyLower (pyTranslate name)

/-- The site dictionary built for one raw site (lines 217-222): buildings get
a `bld_` name prephrase, every other `locationType` keeps the bare normalized
name; `id` and `parentId` are carried through. -/
def getSiteEntry (site : RawSite) : Site :=
  if site.locationType = "building" then
    { name := "bld_" ++ normalizedSiteName site.name, id := site.id, parentId := site.parentId }
  else
    { name := normalizedSiteName site.name, id := site.id, parentId := site.parentId }

/-- `_get_sites` over an already-fetched raw site list (lines 212-226). -/
def get_sites (sites : List RawSite) : List Site := sites.map getSiteEntry

/-! ## `_get_hosts`: device normalization -/

/-- Character list of the family marker `"Unified AP"`. -/
def uapChars : List Char := "Unified AP".toList

/-- The access-point test of lines 179 and 185: Python
`host['family'].find('Unified AP') != -1`. -/
def familyHasUAP (host : RawDevice) : Bool :=
  containsSub uapChars host.family.toList

/-- The host dictionary built for one raw device (lines 180-192). The `os`
projection keeps the conditional expression of line 185 verbatim. -/
def normalizeHost (host : RawDevice) : Host :=
  { managementIpAddress := host.managementIpAddress
    hostname := host.hostname
    id := host.id
    os := if familyHasUAP host then host.family else host.softwareType
    version := host.softwareVersion
    reachabilityStatus := host.reachabilityStatus
    role := host.role
    serialNumber := pySplit ", " host.serialNumber
    series := host.series
    host_data := host }

/-- `_get_hosts` (lines 175-197): accumulate, in inventory order, the
normalized records of every device whose family does not contain
`"Unified AP"`. -/
def get_hosts (inventory : List RawDevice) : List Host :=
  inventory.foldl
    (fun host_list host =>
      if familyHasUAP host then host_list
      else host_list ++ [normalizeHost host])
    []

/-! ## `_get_inventory`: paginated device collection -/

/-- `math.ceil(device_count / api_record_limit)` (line 149), computed in exact
arithmetic over `ℚ`. -/
def offset_pages (device_count api_record_limit : Nat) : Nat :=
  ⌈(device_count : ℚ) / (api_record_limit : ℚ)⌉₊

/-- `_get_inventory` (lines 137-167): `fetch_page start_index` stands for the
`get_device_list(limit, offset=start_index, ...)` call; the loop accumulates
page results in page order starting from the empty `_inventory`. -/
def get_inventory (device_count api_record_limit : Nat)
    (fetch_page : Nat → List RawDevice) : List RawDevice :=
  (List.range (offset_pages device_count api_record_limit)).foldl
    (fun inv offset => inv ++ fetch_page (offset * api_record_limit + 1)) []

/-! ## `_get_member_site` and the run-failure surface -/

/-- The failure modes the host-binding pass can surface: the unguarded `[0]`
indexing of line 241 (Python `IndexError`) and the `AnsibleError` of line 329
that names the offending host id. -/
inductive RunError where
  | indexError
  | bindError (hostId : String)
  deriving DecidableEq, Repr

/-- `_get_member_site` (lines 229-253) over already-fetched topology nodes.
Line 241 takes element `[0]` of the matching-node comprehension, so an empty
match raises `IndexError`; the site-name comprehension then drives the
`len == 1` / `len == 0` / fall-through (implicit `None`) branches. -/
def get_member_site (nodes : List TopologyNode) (site_list : List Site)
    (device_id : String) : Except RunError (Option String) :=
  match nodes.filter (fun dev => dev.id == device_id) with
  | [] => .error .indexError
  | device :: _ =>
    match (site_list.filter (fun site => some site.id == device.siteid)).map Site.name with
    | [n] => .ok (some n)
    | [] => .ok (some "ungrouped")
    | _ => .ok none

/-! ## The target inventory model

Modelled from the spec: the target inventory surface of section 6
(`addGroup`, `addChild`, `addHost`, `setVariable`) is external to the
repository, so it is embedded as explicit state that records each
registration in call order. -/

/-- A value stored with `setVariable`. -/
inductive Value where
  | str (s : String)
  | strList (l : List String)
  | raw (d : RawDevice)
  deriving DecidableEq, Repr

/-- Modelled from the spec: the state of the target inventory model,
accumulating registered groups, parent/child edges, host/group memberships
and host variables. -/
structure Registry where
  groups : List String
  edges : List (String × String)
  hosts : List (String × String)
  hostvars : List (String × String × Value)
  deriving DecidableEq, Repr

/-- The empty inventory a run starts from. -/
def Registry.empty : Registry := ⟨[], [], [], []⟩

/-- Modelled from the spec: `addGroup(name)` registers a group name. -/
def Registry.add_group (reg : Registry) (name : String) : Registry :=
  { reg with groups := reg.groups ++ [name] }

/-- Modelled from the spec: `addChild(parentName, childName)` registers a
parent/child edge between group names. -/
def Registry.add_child (reg : Registry) (parent child : String) : Registry :=
  { reg with edges := reg.edges ++ [(parent, child)] }

/-- Modelled from the spec: `addHost(hostname, group)` places a host in a
group. -/
def Registry.add_host (reg : Registry) (hostname group : String) : Registry :=
  { reg with hosts := reg.hosts ++ [(hostname, group)] }

/-- Modelled from the spec: `setVariable(host, key, value)`. -/
def Registry.set_variable (reg : Registry) (host key : String) (v : Value) : Registry :=
  { reg with hostvars := reg.hostvars ++ [(host, key, v)] }

/-! ## `_add_sites`: hierarchy materialization -/

/-- The body of the parent/child loop of lines 273-285 for one site: when
`site['parentId'] in site_ids` the parent is the first site whose id matches
(line 276's comprehension `[0]`), else the configured toplevel group, else
nothing. -/
def add_site_parent (toplevel : Option String) (site_list : List Site)
    (r : Registry) (site : Site) : Registry :=
  match site_list.find? (fun ste => ste.id == site.parentId) with
  | some parent => r.add_child parent.name site.name
  | none =>
    match toplevel with
    | some t => r.add_child t site.name
    | none => r

/-- `_add_sites` (lines 256-285): register the optional toplevel group and
every site group, then run the parent/child loop. -/
def add_sites (toplevel : Option String) (site_list : List Site)
    (reg : Registry) : Registry :=
  let reg1 :=
    match toplevel with
    | some t => reg.add_group t
    | none => reg
  let reg2 := site_list.foldl (fun r site => r.add_group site.name) reg1
  site_list.foldl (add_site_parent toplevel site_list) reg2

/-! ## `_add_hosts`: host binding -/

/-- The attribute assignments of lines 298-312 for one host, followed by the
OS-hint block of lines 314-323. -/
def bind_host (use_dnac_mgmt_int : Bool) (site_name : String) (h : Host)
    (reg : Registry) : Registry :=
  let host_name := h.hostname
  let r0 := reg.add_host host_name site_name
  let r1 :=
    if use_dnac_mgmt_int then
      r0.set_variable host_name "ansible_host" (.str h.managementIpAddress)
    else r0
  let r2 := r1.set_variable host_name "os" (.str h.os)
  let r3 := r2.set_variable host_name "version" (.str h.version)
  let r4 := r3.set_variable host_name "reachability_status" (.str h.reachabilityStatus)
  let r5 := r4.set_variable host_name "serial_number" (.strList h.serialNumber)
  let r6 := r5.set_variable host_name "hw_type" (.str h.series)
  let r7 := r6.set_variable host_name "id" (.str h.id)
  let r8 := r7.set_variable host_name "site" (.str site_name)
  let r9 := r8.set_variable host_name "host_data" (.raw h.host_data)
  if pyLower h.os == "ios" || pyLower h.os == "ios-xe" || pyLower h.os == "unified ap" then
    ((((r9.set_variable host_name "ansible_network_os" (.str "ios")).set_variable
        host_name "ansible_connection" (.str "network_cli")).set_variable
        host_name "ansible_become" (.str "yes")).set_variable
        host_name "ansible_become_method" (.str "enable"))
  else if pyLower h.os == "nxos" || pyLower h.os == "nx-os" then
    ((((r9.set_variable host_name "ansible_network_os" (.str "nxos")).set_variable
        host_name "ansible_connection" (.str "network_cli")).set_variable
        host_name "ansible_become" (.str "yes")).set_variable
        host_name "ansible_become_method" (.str "enable"))
  else r9

/-- `_add_hosts` (lines 289-329): per host, resolve the member site; a raised
`IndexError` from `_get_member_site` propagates; a falsy resolution (`None`
or the empty string, Python `if site_name:`) raises the `AnsibleError` of
line 329 naming the host id; otherwise the host is registered and
attributed. -/
def add_hosts (nodes : List TopologyNode) (site_list : List Site)
    (use_dnac_mgmt_int : Bool) (host_list : List Host) (reg : Registry) :
    Except RunError Registry :=
  match host_list with
  | [] => .ok reg
  | h :: rest =>
    match get_member_site nodes site_list h.id with
    | .error e => .error e
    | .ok osite =>
      match osite with
      | some site_name =>
        if site_name = "" then .error (.bindError h.id)
        else
          add_hosts nodes site_list use_dnac_mgmt_int rest
            (bind_host use_dnac_mgmt_int site_name h reg)
      | none => .error (.bindError h.id)

/-! ## Concrete fixtures -/

/-- A normalized host whose device id is `"h1"`. -/
def demoHost1 : Host :=
  { managementIpAddress := "10.0.0.1"
    hostname := "sw1"
    id := "h1"
    os := "IOS-XE"
    version := "17.3"
    reachabilityStatus := "Reachable"
    role := "ACCESS"
    serialNumber := ["ABC123"]
    series := "Catalyst"
    host_data :=
      { managementIpAddress := "10.0.0.1"
        hostname := "sw1"
        id := "h1"
        family := "Switches and Hubs"
        softwareType := "IOS-XE"
        softwareVersion := "17.3"
        reachabilityStatus := "Reachable"
        role := "ACCESS"
        serialNumber := "ABC123"
        series := "Catalyst" } }

/-! ## Claims -/

/-- Claim C1, failing input: a normalized host whose device id (`"h1"`)
matches no node of the physical-topology result. `_get_member_site` indexes
`[0]` into the empty comprehension of line 241, raising `IndexError` instead
of resolving to `"ungrouped"`, and `_add_hosts` therefore aborts without
registering or attributing the host. -/
theorem missing_topology_node_index_error :
    get_member_site [⟨"n2", some "s9"⟩] [⟨"bld_x", "s9", "0"⟩] "h1" =
      .error .indexError ∧
    add_hosts [⟨"n2", some "s9"⟩] [⟨"bld_x", "s9", "0"⟩] true [demoHost1]
        Registry.empty =
      .error .indexError :=
  ⟨rfl, rfl⟩

/-- Claim C2, counterexample: `"München (Süd)"` with locationType `building`
does not normalize to `bld_muenchen_sued` — the space and each parenthesis
are replaced by their own underscore, giving `bld_muenchen__sued_`. -/
theorem muenchen_claimed_name_refuted :
    (getSiteEntry
        { name := "München (Süd)", id := "i1", parentId := "p1",
          locationType := "building" }).name ≠ "bld_muenchen_sued" := by
  decide

/-- Claim C2, amended: `"München (Süd)"` with locationType `building`
normalizes to exactly `bld_muenchen__sued_`, and with any other locationType
to exactly `muenchen__sued_`: diacritic folding and
special-character-to-underscore substitution happen in one simultaneous
`translate` pass (each special character yields its own underscore, with no
collapsing of adjacent underscores and no trimming of the trailing one),
followed by lowercasing. -/
theorem muenchen_normalization (lt : String) :
    (getSiteEntry
        { name := "München (Süd)", id := "i1", parentId := "p1",
          locationType := "building" }).name = "bld_muenchen__sued_" ∧
    (lt ≠ "building" →
      (getSiteEntry
          { name := "München (Süd)", id := "i1", parentId := "p1",
            locationType := lt }).name = "muenchen__sued_") := by
  refine ⟨by decide, fun hlt => ?_⟩
  simp only [getSiteEntry, if_neg hlt]
  decide

/-- Claim C2, amended, witness at locationType `floor`. -/
theorem muenchen_normalization_witness :
    (getSiteEntry
        { name := "München (Süd)", id := "i1", parentId := "p1",
          locationType := "building" }).name = "bld_muenchen__sued_" ∧
    (getSiteEntry
        { name := "München (Süd)", id := "i1", parentId := "p1",
          locationType := "floor" }).name = "muenchen__sued_" :=
  ⟨(muenchen_normalization "floor").1,
   (muenchen_normalization "floor").2 (by decide)⟩

/-- Claim C3, failing input: a site whose `parentId` equals its own `id`.
The membership test of line 275 matches the site's own id, so `_add_sites`
registers the self parent/child edge `add_child('a', 'a')`; no
malformed-cycle rejection exists in the materializer. -/
theorem self_parent_edge_registered :
    (add_sites (some "root") [⟨"a", "1", "1"⟩] Registry.empty).edges =
      [("a", "a")] :=
  rfl

/-- Left-accumulating page concatenation is the flattening of the pages in
order. -/
theorem foldl_append_eq_flatten {α β : Type} (f : β → List α) (l : List β)
    (acc : List α) :
    l.foldl (fun inv i => inv ++ f i) acc = acc ++ (l.map f).flatten := by
  induction l generalizing acc with
  | nil => simp
  | cons a t ih => simp [ih]

/-- `math.ceil(n / p)` is the usual natural ceiling division. -/
theorem offset_pages_eq (n p : Nat) (hp : 0 < p) :
    offset_pages n p = (n + p - 1) / p := by
  unfold offset_pages
  rcases Nat.eq_zero_or_pos n with h0 | hn
  · subst h0
    simp [Nat.div_eq_of_lt (Nat.sub_lt hp Nat.one_pos)]
  · have hdm := Nat.div_add_mod (n + p - 1) p
    have hmod : (n + p - 1) % p < p := Nat.mod_lt _ hp
    have hm1 : 1 ≤ (n + p - 1) / p := by
      rw [Nat.le_div_iff_mul_le hp]
      omega
    have hub : n ≤ ((n + p - 1) / p) * p := by
      rw [Nat.mul_comm]
      have h := hdm
      generalize p * ((n + p - 1) / p) = q at h ⊢
      omega
    have hlb : ((n + p - 1) / p - 1) * p < n := by
      rw [Nat.sub_mul, one_mul]
      have h := hdm
      rw [Nat.mul_comm] at h
      generalize hq : ((n + p - 1) / p) * p = q at h
      have hpq : p ≤ q := by
        rw [← hq]
        calc p = 1 * p := (one_mul p).symm
          _ ≤ ((n + p - 1) / p) * p := Nat.mul_le_mul_right p hm1
      omega
    have hp' : (0 : ℚ) < (p : ℚ) := by exact_mod_cast hp
    rw [Nat.ceil_eq_iff (by omega)]
    constructor
    · rw [lt_div_iff₀ hp']
      exact_mod_cast hlb
    · rw [div_le_iff₀ hp']
      exact_mod_cast hub

/-- Claim C4: for device count `n` and page size `p > 0`, `_get_inventory`
issues exactly `ceil(n / p)` page requests, page `i` (0-indexed) requesting
starting offset `i * p + 1`, and the accumulated result is the in-order
flattening of the pages (each page's internal order and the inter-page order
are preserved); `n = 0` yields zero pages and an empty result. -/
theorem device_pagination (n p : Nat) (fetch : Nat → List RawDevice)
    (hp : 0 < p) :
    offset_pages n p = (n + p - 1) / p ∧
    get_inventory n p fetch =
      ((List.range (offset_pages n p)).map (fun i => fetch (i * p + 1))).flatten ∧
    (n = 0 → offset_pages n p = 0 ∧ get_inventory n p fetch = []) := by
  have hzero : n = 0 → offset_pages n p = 0 := by
    intro h0
    subst h0
    simp [offset_pages]
  refine ⟨offset_pages_eq n p hp, ?_, fun h0 => ⟨hzero h0, ?_⟩⟩
  · unfold get_inventory
    rw [foldl_append_eq_flatten]
    simp
  · unfold get_inventory
    rw [hzero h0]
    simp

/-- Claim C4, witness: three devices with page size two need two pages, and
zero devices yield an empty inventory. -/
theorem device_pagination_witness :
    offset_pages 3 2 = 2 ∧ get_inventory 0 2 (fun _ => []) = [] := by
  constructor
  · rw [(device_pagination 3 2 (fun _ => []) (by decide)).1]
  · exact ((device_pagination 0 2 (fun _ => []) (by decide)).2.2 rfl).2

/-- `_get_hosts` is the map of the normalizer over the devices whose family
does not contain `"Unified AP"`. -/
theorem get_hosts_eq (inv : List RawDevice) :
    get_hosts inv =
      (inv.filter (fun d => !familyHasUAP d)).map normalizeHost := by
  have key : ∀ (l : List RawDevice) (acc : List Host),
      l.foldl
        (fun host_list host =>
          if familyHasUAP host then host_list
          else host_list ++ [normalizeHost host]) acc =
      acc ++ (l.filter (fun d => !familyHasUAP d)).map normalizeHost := by
    intro l
    induction l with
    | nil => simp
    | cons a t ih =>
      intro acc
      by_cases hc : familyHasUAP a
      · simp [List.foldl_cons, List.filter_cons, hc, ih]
      · simp [List.foldl_cons, List.filter_cons, hc, ih]
  simpa [get_hosts] using key inv []

/-- Claim C5: a raw record whose family contains `"Unified AP"` never appears
in the normalized host sequence, and every other record appears in it exactly
as often as it occurs in the input — in particular exactly once for each of
its occurrences (the `host_data` back-reference identifies the originating
record). -/
theorem ap_filter_count (inv : List RawDevice) (h : RawDevice) :
    (get_hosts inv).countP (fun x => x.host_data == h) =
      if familyHasUAP h then 0
      else inv.countP (fun d => d == h) := by
  rw [get_hosts_eq, List.countP_map]
  have hcomp : ((fun x : Host => x.host_data == h) ∘ normalizeHost) =
      fun d : RawDevice => d == h := rfl
  rw [hcomp, List.countP_filter]
  by_cases hc : familyHasUAP h
  · rw [if_pos hc, List.countP_eq_zero]
    intro a _ ha
    have hah : a = h := by
      have := (Bool.and_eq_true _ _).mp ha
      exact eq_of_beq this.1
    subst hah
    simp [hc] at ha
  · rw [if_neg hc]
    apply List.countP_congr
    intro a _
    constructor
    · intro ha
      exact ((Bool.and_eq_true _ _).mp ha).1
    · intro ha
      have hah : a = h := eq_of_beq ha
      subst hah
      simp only [Bool.not_eq_true] at hc
      simp [ha, hc]

/-- Claim C9: every normalized host's `os` equals its raw record's
`softwareType`: the `family` branch of the conditional in line 185 is
unreachable because the surrounding filter already dropped every record whose
family contains `"Unified AP"`. -/
theorem os_projection_software_type (inv : List RawDevice) (x : Host)
    (hx : x ∈ get_hosts inv) : x.os = x.host_data.softwareType := by
  rw [get_hosts_eq] at hx
  obtain ⟨d, hd, rfl⟩ := List.mem_map.mp hx
  have hc : familyHasUAP d = false := by
    simpa using (List.mem_filter.mp hd).2
  simp [normalizeHost, hc]

/-- Claim C9, witness at a concrete one-device inventory. -/
theorem os_projection_software_type_witness :
    (normalizeHost demoHost1.host_data).os =
      (normalizeHost demoHost1.host_data).host_data.softwareType :=
  os_projection_software_type [demoHost1.host_data] _ (by decide)

/-- Claim C8: `_get_hosts` splits the raw comma-separated serial field on
`", "`: `"ABC123, DEF456"` yields `["ABC123", "DEF456"]` and the single
serial `"XYZ789"` yields `["XYZ789"]`. -/
theorem serial_number_split :
    (normalizeHost
        { managementIpAddress := "", hostname := "", id := "",
          family := "Switches and Hubs", softwareType := "",
          softwareVersion := "", reachabilityStatus := "", role := "",
          serialNumber := "ABC123, DEF456", series := "" }).serialNumber =
      ["ABC123", "DEF456"] ∧
    (normalizeHost
        { managementIpAddress := "", hostname := "", id := "",
          family := "Switches and Hubs", softwareType := "",
          softwareVersion := "", reachabilityStatus := "", role := "",
          serialNumber := "XYZ789", series := "" }).serialNumber =
      ["XYZ789"] := by
  constructor <;> decide

/-- The parent-group name `_add_sites` resolves for one site: the first site
whose id equals the child's `parentId`, else the toplevel group, else
nothing. -/
def resolved_parent (toplevel : Option String) (site_list : List Site)
    (site : Site) : Option String :=
  match site_list.find? (fun ste => ste.id == site.parentId) with
  | some parent => some parent.name
  | none => toplevel

/-- One loop step contributes exactly the resolved edge. -/
theorem add_site_parent_edges (toplevel : Option String) (site_list : List Site)
    (r : Registry) (site : Site) :
    (add_site_parent toplevel site_list r site).edges =
      r.edges ++
        ((resolved_parent toplevel site_list site).map
          (fun p => (p, site.name))).toList := by
  unfold add_site_parent resolved_parent
  cases site_list.find? (fun ste => ste.id == site.parentId) with
  | some parent => simp [Registry.add_child]
  | none =>
    cases toplevel with
    | some t => simp [Registry.add_child]
    | none => simp

/-- The group-registration phases leave the edge list untouched, and the
parent/child loop appends exactly the resolved edges, in site order. -/
theorem add_sites_edges (toplevel : Option String) (site_list : List Site)
    (reg : Registry) :
    (add_sites toplevel site_list reg).edges =
      reg.edges ++
        site_list.filterMap
          (fun s => (resolved_parent toplevel site_list s).map
            (fun p => (p, s.name))) := by
  have hloop : ∀ (l : List Site) (r : Registry),
      (l.foldl (add_site_parent toplevel site_list) r).edges =
        r.edges ++
          l.filterMap
            (fun s => (resolved_parent toplevel site_list s).map
              (fun p => (p, s.name))) := by
    intro l
    induction l with
    | nil => simp
    | cons a t ih =>
      intro r
      rw [List.foldl_cons, ih, add_site_parent_edges, List.filterMap_cons]
      cases resolved_parent toplevel site_list a with
      | some p => simp
      | none => simp
  have hgroups : ∀ (l : List Site) (r : Registry),
      (l.foldl (fun r site => r.add_group site.name) r).edges = r.edges := by
    intro l
    induction l with
    | nil => simp
    | cons a t ih =>
      intro r
      rw [List.foldl_cons, ih]
      rfl
  unfold add_sites
  rw [hloop, hgroups]
  cases toplevel with
  | some t => rfl
  | none => rfl

/-- With pairwise-distinct site ids, `find?` on an id returns the member that
carries it. -/
theorem find?_id_eq (site_list : List Site) (parent : Site)
    (hids : (site_list.map Site.id).Nodup) (hmem : parent ∈ site_list)
    (x : String) (hx : parent.id = x) :
    site_list.find? (fun ste => ste.id == x) = some parent := by
  induction site_list with
  | nil => cases hmem
  | cons a t ih =>
    rcases List.mem_cons.mp hmem with rfl | hmt
    · have hpos : (parent.id == x) = true := by simpa using hx
      rw [List.find?_cons, hpos]
    · have hids' : (t.map Site.id).Nodup := (List.nodup_cons.mp hids).2
      have hanot : a.id ∉ t.map Site.id := (List.nodup_cons.mp hids).1
      have hne : (a.id == x) = false := by
        apply beq_eq_false_iff_ne.mpr
        intro hax
        apply hanot
        rw [hax, ← hx]
        exact List.mem_map_of_mem Site.id hmt
      rw [List.find?_cons, hne]
      exact ih hids' hmt

/-- Claim C6: for every site in the materialized hierarchy, if its `parentId`
equals another known site's id its registered parent group is that site's
normalized name; otherwise, with a configured toplevel group, its parent is
the toplevel group; otherwise no parent edge is registered for it. Site ids
and normalized names are assumed pairwise distinct (the data-model
invariants). -/
theorem site_parent_resolution (toplevel : Option String)
    (site_list : List Site) (site : Site) (hmem : site ∈ site_list)
    (hids : (site_list.map Site.id).Nodup)
    (hnames : (site_list.map Site.name).Nodup) :
    (∀ parent ∈ site_list, parent.id = site.parentId →
      (parent.name, site.name) ∈
        (add_sites toplevel site_list Registry.empty).edges) ∧
    ((∀ ste ∈ site_list, ste.id ≠ site.parentId) → ∀ t, toplevel = some t →
      (t, site.name) ∈ (add_sites toplevel site_list Registry.empty).edges) ∧
    ((∀ ste ∈ site_list, ste.id ≠ site.parentId) → toplevel = none →
      ∀ p, (p, site.name) ∉
        (add_sites toplevel site_list Registry.empty).edges) := by
  rw [add_sites_edges]
  simp only [Registry.empty, List.nil_append]
  refine ⟨?_, ?_, ?_⟩
  · intro parent hpmem hpid
    apply List.mem_filterMap.mpr
    refine ⟨site, hmem, ?_⟩
    rw [resolved_parent, find?_id_eq site_list parent hids hpmem site.parentId hpid]
    rfl
  · intro hnone t htop
    apply List.mem_filterMap.mpr
    refine ⟨site, hmem, ?_⟩
    have hfind : site_list.find? (fun ste => ste.id == site.parentId) = none := by
      rw [List.find?_eq_none]
      intro x hxmem
      simpa using hnone x hxmem
    rw [resolved_parent, hfind, htop]
    rfl
  · intro hnone htop p hp
    obtain ⟨a, hamem, ha⟩ := List.mem_filterMap.mp hp
    obtain ⟨q, hq, hqa⟩ := Option.map_eq_some'.mp ha
    have haname : a.name = site.name := congrArg Prod.snd hqa
    have hasite : a = site :=
      List.inj_on_of_nodup_map hnames hamem hmem haname
    subst hasite
    have hfind : a.id = a.id := rfl
    have hfnone : site_list.find? (fun ste => ste.id == a.parentId) = none := by
      rw [List.find?_eq_none]
      intro x hxmem
      simpa using hnone x hxmem
    rw [resolved_parent, hfnone, htop] at hq
    cases hq

/-- Claim C6, witness on the three-site example with toplevel `root`:
site 2 attaches under site 1's group, site 3 (unmatched parent) under
`root`. -/
theorem site_parent_resolution_witness :
    ("s1", "s2") ∈
      (add_sites (some "root")
        [⟨"s1", "1", "0"⟩, ⟨"s2", "2", "1"⟩, ⟨"s3", "3", "99"⟩]
        Registry.empty).edges ∧
    ("root", "s3") ∈
      (add_sites (some "root")
        [⟨"s1", "1", "0"⟩, ⟨"s2", "2", "1"⟩, ⟨"s3", "3", "99"⟩]
        Registry.empty).edges :=
  ⟨(site_parent_resolution (some "root")
      [⟨"s1", "1", "0"⟩, ⟨"s2", "2", "1"⟩, ⟨"s3", "3", "99"⟩]
      ⟨"s2", "2", "1"⟩ (by decide) (by decide) (by decide)).1
      ⟨"s1", "1", "0"⟩ (by decide) rfl,
   (site_parent_resolution (some "root")
      [⟨"s1", "1", "0"⟩, ⟨"s2", "2", "1"⟩, ⟨"s3", "3", "99"⟩]
      ⟨"s3", "3", "99"⟩ (by decide) (by decide) (by decide)).2.1
      (by decide) "root" rfl⟩

/-- The base attributes lines 298-312 attach to one host, in call order,
before the OS-hint block. -/
def base_attrs (use_dnac_mgmt_int : Bool) (site_name : String) (h : Host) :
    List (String × String × Value) :=
  (if use_dnac_mgmt_int then
    [(h.hostname, "ansible_host", Value.str h.managementIpAddress)]
  else []) ++
  [(h.hostname, "os", Value.str h.os),
   (h.hostname, "version", Value.str h.version),
   (h.hostname, "reachability_status", Value.str h.reachabilityStatus),
   (h.hostname, "serial_number", Value.strList h.serialNumber),
   (h.hostname, "hw_type", Value.str h.series),
   (h.hostname, "id", Value.str h.id),
   (h.hostname, "site", Value.str site_name),
   (h.hostname, "host_data", Value.raw h.host_data)]

/-- Claim C7: for every bound host, an `os` that case-insensitively equals
`ios`, `ios-xe` or `unified ap` gets exactly the IOS directive set
(`ansible_network_os ios`, `network_cli` connection, become with `enable`)
appended after the base attributes; `nxos` or `nx-os` gets the NX-OS set;
every other `os` value gets no automation hints. -/
theorem os_hint_assignment (u : Bool) (site_name : String) (h : Host)
    (reg : Registry) :
    (pyLower h.os = "ios" ∨ pyLower h.os = "ios-xe" ∨
        pyLower h.os = "unified ap" →
      (bind_host u site_name h reg).hostvars =
        reg.hostvars ++ base_attrs u site_name h ++
          [(h.hostname, "ansible_network_os", Value.str "ios"),
           (h.hostname, "ansible_connection", Value.str "network_cli"),
           (h.hostname, "ansible_become", Value.str "yes"),
           (h.hostname, "ansible_become_method", Value.str "enable")]) ∧
    (pyLower h.os = "nxos" ∨ pyLower h.os = "nx-os" →
      (bind_host u site_name h reg).hostvars =
        reg.hostvars ++ base_attrs u site_name h ++
          [(h.hostname, "ansible_network_os", Value.str "nxos"),
           (h.hostname, "ansible_connection", Value.str "network_cli"),
           (h.hostname, "ansible_become", Value.str "yes"),
           (h.hostname, "ansible_become_method", Value.str "enable")]) ∧
    (pyLower h.os ∉ (["ios", "ios-xe", "unified ap", "nxos", "nx-os"] :
        List String) →
      (bind_host u site_name h reg).hostvars =
        reg.hostvars ++ base_attrs u site_name h) := by
  refine ⟨?_, ?_, ?_⟩
  · rintro (hos | hos | hos) <;>
      cases u <;>
        simp [bind_host, Registry.add_host, Registry.set_variable, base_attrs,
          hos]
  · rintro (hos | hos) <;>
      cases u <;>
        simp [bind_host, Registry.add_host, Registry.set_variable, base_attrs,
          hos]
  · intro hos
    simp only [List.mem_cons, List.not_mem_nil, or_false, not_or] at hos
    obtain ⟨h1, h2, h3, h4, h5⟩ := hos
    cases u <;>
      simp [bind_host, Registry.add_host, Registry.set_variable, base_attrs,
        h1, h2, h3, h4, h5]

/-- Claim C7, witness: `os = "IOS-XE"` receives the IOS directive set. -/
theorem os_hint_assignment_witness :
    (bind_host true "bld_site1" demoHost1 Registry.empty).hostvars =
      Registry.empty.hostvars ++ base_attrs true "bld_site1" demoHost1 ++
        [(demoHost1.hostname, "ansible_network_os", Value.str "ios"),
         (demoHost1.hostname, "ansible_connection", Value.str "network_cli"),
         (demoHost1.hostname, "ansible_become", Value.str "yes"),
         (demoHost1.hostname, "ansible_become_method", Value.str "enable")] :=
  (os_hint_assignment true "bld_site1" demoHost1 Registry.empty).1
    (Or.inr (Or.inl (by decide)))

/-- Claim C10: when the first matching topology node's siteid is carried by
two or more sites, `_get_member_site` falls through both `len` branches and
returns no group name at all (not even `"ungrouped"`), and `_add_hosts`
aborts the run for that host with the error naming its device id. -/
theorem duplicate_site_ids_no_group (nodes : List TopologyNode)
    (site_list : List Site) (device_id : String) (node : TopologyNode)
    (hhead : (nodes.filter (fun dev => dev.id == device_id)).head? = some node)
    (hdup : 2 ≤
      (site_list.filter (fun site => some site.id == node.siteid)).length) :
    get_member_site nodes site_list device_id = .ok none ∧
    ∀ (u : Bool) (h : Host) (rest : List Host) (reg : Registry),
      h.id = device_id →
      add_hosts nodes site_list u (h :: rest) reg =
        .error (.bindError h.id) := by
  have hmain : get_member_site nodes site_list device_id = .ok none := by
    unfold get_member_site
    cases hf : nodes.filter (fun dev => dev.id == device_id) with
    | nil => rw [hf] at hhead; cases hhead
    | cons d t =>
      rw [hf] at hhead
      have hd : d = node := by simpa using hhead
      subst hd
      dsimp only
      cases hm : site_list.filter (fun site => some site.id == d.siteid) with
      | nil =>
        rw [hm] at hdup
        simp at hdup
      | cons s1 rest =>
        cases rest with
        | nil =>
          rw [hm] at hdup
          simp at hdup
        | cons s2 rest2 => rfl
  refine ⟨hmain, ?_⟩
  intro u h rest reg hid
  have hres : get_member_site nodes site_list h.id = .ok none := by
    rw [hid, hmain]
  simp [add_hosts, hres]

/-- Claim C10, witness: two sites share the id `"s1"` the topology node
points at. -/
theorem duplicate_site_ids_no_group_witness :
    get_member_site [⟨"h1", some "s1"⟩]
        [⟨"bld_a", "s1", "p"⟩, ⟨"bld_b", "s1", "p"⟩] "h1" = .ok none ∧
    add_hosts [⟨"h1", some "s1"⟩]
        [⟨"bld_a", "s1", "p"⟩, ⟨"bld_b", "s1", "p"⟩] true [demoHost1]
        Registry.empty = .error (.bindError "h1") := by
  have t := duplicate_site_ids_no_group [⟨"h1", some "s1"⟩]
    [⟨"bld_a", "s1", "p"⟩, ⟨"bld_b", "s1", "p"⟩] "h1" ⟨"h1", some "s1"⟩
    (by decide) (by decide)
  exact ⟨t.1, t.2 true demoHost1 [] Registry.empty rfl⟩

end DnaCenter
